import Mathlib

/-!
Verification development for the NDJSON data-quality checker
(`scripts/data_quality_ckeck.py`).  The Python code is shallowly embedded:
JSON values become an inductive type, Python dicts become association
lists kept in insertion order, the logger becomes an explicit list of
emitted log entries, and code that can raise returns `Except`.
-/

set_option maxHeartbeats 1000000

/-- JSON values as decoded by `json.loads`, one per NDJSON line.  Numbers are
modelled by `Rat` (Python ints and floats; all numeric literals the claims
touch are exactly representable). -/
inductive Json where
  | null
  | bool (b : Bool)
  | num (q : Rat)
  | str (s : String)
  | arr (items : List Json)
  | obj (fields : List (String × Json))

mutual

/-- Structural equality test on JSON values (Python `==` restricted to the
shapes the checker compares: identifier values). -/
def jeq : Json → Json → Bool
  | .null, .null => true
  | .bool a, .bool b => a == b
  | .num a, .num b => a == b
  | .str a, .str b => a == b
  | .arr a, .arr b => jeqList a b
  | .obj a, .obj b => jeqFields a b
  | .null, .bool _ => false
  | .null, .num _ => false
  | .null, .str _ => false
  | .null, .arr _ => false
  | .null, .obj _ => false
  | .bool _, .null => false
  | .bool _, .num _ => false
  | .bool _, .str _ => false
  | .bool _, .arr _ => false
  | .bool _, .obj _ => false
  | .num _, .null => false
  | .num _, .bool _ => false
  | .num _, .str _ => false
  | .num _, .arr _ => false
  | .num _, .obj _ => false
  | .str _, .null => false
  | .str _, .bool _ => false
  | .str _, .num _ => false
  | .str _, .arr _ => false
  | .str _, .obj _ => false
  | .arr _, .null => false
  | .arr _, .bool _ => false
  | .arr _, .num _ => false
  | .arr _, .str _ => false
  | .arr _, .obj _ => false
  | .obj _, .null => false
  | .obj _, .bool _ => false
  | .obj _, .num _ => false
  | .obj _, .str _ => false
  | .obj _, .arr _ => false

/-- `jeq` lifted to lists of JSON values. -/
def jeqList : List Json → List Json → Bool
  | [], [] => true
  | a :: as, b :: bs => jeq a b && jeqList as bs
  | [], _ :: _ => false
  | _ :: _, [] => false

/-- `jeq` lifted to association lists. -/
def jeqFields : List (String × Json) → List (String × Json) → Bool
  | [], [] => true
  | (k, v) :: as, (k2, v2) :: bs => k == k2 && jeq v v2 && jeqFields as bs
  | [], _ :: _ => false
  | _ :: _, [] => false

end

mutual

theorem jeq_iff : ∀ (a b : Json), jeq a b = true ↔ a = b
  | .null, .null => by simp [jeq]
  | .null, .bool _ => by simp [jeq]
  | .null, .num _ => by simp [jeq]
  | .null, .str _ => by simp [jeq]
  | .null, .arr _ => by simp [jeq]
  | .null, .obj _ => by simp [jeq]
  | .bool _, .null => by simp [jeq]
  | .bool _, .bool _ => by simp [jeq]
  | .bool _, .num _ => by simp [jeq]
  | .bool _, .str _ => by simp [jeq]
  | .bool _, .arr _ => by simp [jeq]
  | .bool _, .obj _ => by simp [jeq]
  | .num _, .null => by simp [jeq]
  | .num _, .bool _ => by simp [jeq]
  | .num _, .num _ => by simp [jeq]
  | .num _, .str _ => by simp [jeq]
  | .num _, .arr _ => by simp [jeq]
  | .num _, .obj _ => by simp [jeq]
  | .str _, .null => by simp [jeq]
  | .str _, .bool _ => by simp [jeq]
  | .str _, .num _ => by simp [jeq]
  | .str _, .str _ => by simp [jeq]
  | .str _, .arr _ => by simp [jeq]
  | .str _, .obj _ => by simp [jeq]
  | .arr _, .null => by simp [jeq]
  | .arr _, .bool _ => by simp [jeq]
  | .arr _, .num _ => by simp [jeq]
  | .arr _, .str _ => by simp [jeq]
  | .arr as, .arr bs => by simp [jeq, jeqList_iff as bs]
  | .arr _, .obj _ => by simp [jeq]
  | .obj _, .null => by simp [jeq]
  | .obj _, .bool _ => by simp [jeq]
  | .obj _, .num _ => by simp [jeq]
  | .obj _, .str _ => by simp [jeq]
  | .obj _, .arr _ => by simp [jeq]
  | .obj afs, .obj bfs => by simp [jeq, jeqFields_iff afs bfs]

theorem jeqList_iff : ∀ (a b : List Json), jeqList a b = true ↔ a = b
  | [], [] => by simp [jeqList]
  | [], _ :: _ => by simp [jeqList]
  | _ :: _, [] => by simp [jeqList]
  | a :: as, b :: bs => by
    simp [jeqList, jeq_iff a b, jeqList_iff as bs]

theorem jeqFields_iff : ∀ (a b : List (String × Json)), jeqFields a b = true ↔ a = b
  | [], [] => by simp [jeqFields]
  | [], _ :: _ => by simp [jeqFields]
  | _ :: _, [] => by simp [jeqFields]
  | (k, v) :: as, (k2, v2) :: bs => by
    simp [jeqFields, jeq_iff v v2, jeqFields_iff as bs, Prod.ext_iff, and_assoc]

end

instance : DecidableEq Json := fun a b => decidable_of_iff _ (jeq_iff a b)

/-- A decoded NDJSON record: a Python dict, modelled as an association list in
insertion order (Python dict keys are unique and insertion-ordered). -/
abbrev Record := List (String × Json)

/-- Log levels used by the checker's logger. -/
inductive Level where
  | info
  | warning
deriving DecidableEq, Repr

/-- One line emitted to the log (`logger.info` / `logger.warning`). -/
structure LogEntry where
  level : Level
  msg : String
deriving DecidableEq, Repr

/-- Splits a character list at the first dot, returning the part before it and
(`some`) the part after it when a dot is present. -/
def splitAtDot : List Char → List Char × Option (List Char)
  | [] => ([], none)
  | c :: rest =>
    if c = '.' then ([], some rest)
    else
      let (i, f) := splitAtDot rest
      (c :: i, f)

/-- Decimal value of a digit list (most significant first). -/
def digitsToNat (cs : List Char) : Nat :=
  cs.foldl (fun n c => n * 10 + (c.toNat - 48)) 0

/-- Model of Python's built-in `float` applied to a string, for plain decimal
literals: optional sign, digits, optional fractional part.  Returns `none`
where Python raises `ValueError`.  (Exotic accepted spellings such as
exponents, `inf`/`nan`, underscores or surrounding whitespace are outside the
model; no claim depends on them.) -/
def pyFloat? (s : String) : Option Rat :=
  let cs := s.toList
  let neg : Bool := match cs with
    | c :: _ => c = '-'
    | [] => false
  let body : List Char := match cs with
    | c :: r => if c = '-' ∨ c = '+' then r else cs
    | [] => []
  let (ip, fp?) := splitAtDot body
  let fp := fp?.getD []
  if ip.all Char.isDigit ∧ fp.all Char.isDigit ∧ (ip ≠ [] ∨ fp ≠ []) then
    let den : Nat := 10 ^ fp.length
    let numv : Int := digitsToNat ip * den + digitsToNat fp
    some (if neg then mkRat (-numv) den else mkRat numv den)
  else none

/-- The mapping built by `check_negative_values`: dotted/bracketed path
strings to the negative numeric values found there (a Python dict, kept in
insertion order). -/
abbrev PathMap := List (String × Rat)

/-- Python `d[k] = q` on the dict model: replace the value at an existing key
in place, otherwise append the new entry. -/
def pyInsert (acc : PathMap) (k : String) (q : Rat) : PathMap :=
  if acc.any (fun kv => kv.1 = k) then
    acc.map (fun kv => if kv.1 = k then (kv.1, q) else kv)
  else acc ++ [(k, q)]

/-- Python `d.update(u)` on the dict model: insert every entry of `u`, in
order, into `acc`. -/
def pyMerge (acc upd : PathMap) : PathMap :=
  upd.foldl (fun a kv => pyInsert a kv.1 kv.2) acc

mutual

/-- `check_negative_values` (lines 59-88): recursively walk a JSON structure
collecting negative numeric values keyed by path.  Dict values that are
themselves dicts or lists are recursed into; other dict values are tested for
negativity (strings after coercion by `float`, with coercion failures
skipped); list elements are recursed into (so scalars that are direct list
elements fall through the `isinstance` tests and are never examined). -/
def check_negative_values : Json → String → PathMap
  | .obj fields, path => cnvFields fields path []
  | .arr items, path => cnvItems items path 0 []
  | _, _ => []

/-- The dict loop of `check_negative_values`, carrying the accumulated
Python dict. -/
def cnvFields : List (String × Json) → String → PathMap → PathMap
  | [], _, acc => acc
  | (key, value) :: rest, path, acc =>
    let newPath := if path = "" then key else path ++ "." ++ key
    let acc' := match value with
      | .obj fs => pyMerge acc (check_negative_values (.obj fs) newPath)
      | .arr its => pyMerge acc (check_negative_values (.arr its) newPath)
      | .str s =>
        match pyFloat? s with
        | some q => if q < 0 then pyInsert acc newPath q else acc
        | none => acc
      | .num q => if q < 0 then pyInsert acc newPath q else acc
      | .bool _ => acc
      | .null => acc
    cnvFields rest path acc'

/-- The list loop of `check_negative_values`, carrying the index and the
accumulated Python dict. -/
def cnvItems : List Json → String → Nat → PathMap → PathMap
  | [], _, _, acc => acc
  | item :: rest, path, i, acc =>
    let newPath := path ++ "[" ++ toString i ++ "]"
    cnvItems rest path (i + 1) (pyMerge acc (check_negative_values item newPath))

end

/-- Negativity of a single non-container JSON value, exactly as the scanner
tests it: numbers directly, strings after `float` coercion, everything else
(booleans, null) never negative. -/
def negLeaf : Json → Bool
  | .num q => decide (q < 0)
  | .str s =>
    match pyFloat? s with
    | some q => decide (q < 0)
    | none => false
  | _ => false

mutual

/-- Whether the structure contains a negative value at a position the scanner
actually examines: a non-container value stored as a dict value, reachable
through dict values and list elements. -/
def hasNegDictLeaf : Json → Bool
  | .obj fields => hndFields fields
  | .arr items => hndItems items
  | _ => false

/-- Dict part of `hasNegDictLeaf`. -/
def hndFields : List (String × Json) → Bool
  | [] => false
  | (_, value) :: rest =>
    (match value with
     | .obj fs => hasNegDictLeaf (.obj fs)
     | .arr its => hasNegDictLeaf (.arr its)
     | v => negLeaf v) || hndFields rest

/-- List part of `hasNegDictLeaf`. -/
def hndItems : List Json → Bool
  | [] => false
  | item :: rest => hasNegDictLeaf item || hndItems rest

end

mutual

/-- Whether the structure contains a negative numeric value anywhere (dict
values, list elements, or the root itself), with the scanner's string
coercion.  This follows the claim's wording "negative numeric values found
anywhere in the structure" and is compared against what the scanner from the
source actually reports. -/
def hasNegAnywhere : Json → Bool
  | .obj fields => hnaFields fields
  | .arr items => hnaItems items
  | v => negLeaf v

/-- Dict part of `hasNegAnywhere`. -/
def hnaFields : List (String × Json) → Bool
  | [] => false
  | (_, value) :: rest => hasNegAnywhere value || hnaFields rest

/-- List part of `hasNegAnywhere`. -/
def hnaItems : List Json → Bool
  | [] => false
  | item :: rest => hasNegAnywhere item || hnaItems rest

end

/-- The fixed, order-significant list of recognized date field names
(lines 175-183; "The fields order matter - DO NOT CHANGE!"). -/
def date_fields : List String :=
  [("lastLogin"), ("createDate"), ("dateScanned"), ("finishedDate"),
   ("modifyDate"), ("pointsAwardedDate"), ("purchaseDate")]

/-- Rendering used in log messages for numbers and timestamps.  Stands in for
Python's string formatting; no claim inspects the rendered text. -/
def renderRat (q : Rat) : String :=
  toString q.num ++ "/" ++ toString q.den

/-- The warning emitted for a recognized date field absent from a record of a
given entity ("receipts" or "users"). -/
def missingDateWarn (entity field : String) (idx : Nat) : LogEntry :=
  ⟨.warning, "Missing date field \x27" ++ field ++ "\x27 in " ++ entity
    ++ " data at line number " ++ toString idx⟩

/-- The body of the `for field in date_fields` loop of `check_date_format`
(lines 185-208) for one field.  The `datetime.fromtimestamp` conversion is
modelled as succeeding on numeric (and boolean, which Python divides as a
number) `$date` payloads and failing with a caught `TypeError` on all other
payloads; the rendered local time is abstracted by `renderRat`. -/
def dateFieldLog (entity : String) (item : Record) (idx : Nat) (field : String) : List LogEntry :=
  match item.lookup field with
  | some v =>
    match v with
    | .obj fs =>
      match fs.lookup ("$date") with
      | some ts =>
        (match ts with
         | .num q =>
           [⟨.info, field ++ ": Valid date - " ++ renderRat (q / 1000) ++ " in " ++ entity⟩]
         | .bool b =>
           [⟨.info, field ++ ": Valid date - "
              ++ renderRat ((if b then (1 : Rat) else 0) / 1000) ++ " in " ++ entity⟩]
         | _ => [⟨.warning, field ++ ": Invalid date format in " ++ entity⟩])
      | none =>
        [⟨.warning, field ++ ": Incorrect date format found in " ++ entity
           ++ " at line number " ++ toString idx
           ++ " (expected \x7b\x27$date\x27: timestamp\x7d)"⟩]
    | _ =>
      [⟨.warning, field ++ ": Incorrect date format found in " ++ entity
         ++ " at line number " ++ toString idx
         ++ " (expected \x7b\x27$date\x27: timestamp\x7d)"⟩]
  | none =>
    if entity = "receipts" ∧ field ∈ date_fields.drop 1 then
      [missingDateWarn ("receipts") field idx]
    else if entity = "users" ∧ field ∈ date_fields.take 1 then
      [missingDateWarn ("users") field idx]
    else []

/-- `check_date_format` (lines 166-208): run the per-field date validation
over the fixed field list, in order. -/
def check_date_format (entity : String) (item : Record) (idx : Nat) : List LogEntry :=
  (date_fields.map (dateFieldLog entity item idx)).flatten

/-- Python's `pat in s` on strings: contiguous substring containment. -/
def hasSubstring (pat : List Char) : List Char → Bool
  | [] => pat.isEmpty
  | c :: rest => pat.isPrefixOf (c :: rest) || hasSubstring pat rest

/-- `check_negative_numeric_fields` (lines 210-227): warn when a numeric
field whose lower-cased name contains one of the indicator substrings holds a
negative value.  (Note the double space before the index, as in the source.) -/
def check_negative_numeric_fields (entity key : String) (value : Rat) (idx : Nat) : List LogEntry :=
  if ([("count"), ("amount"), ("price"), ("quantity")].any
        (fun ind => hasSubstring ind.toList key.toLower.toList)) ∧ value < 0 then
    [⟨.warning, "Negative value for " ++ key ++ " found in " ++ entity
       ++ " at line number  " ++ toString idx⟩]
  else []

/-- `check_empty_list` (lines 229-240): warn on an empty list value. -/
def check_empty_list (entity key : String) (l : List Json) (idx : Nat) : List LogEntry :=
  if l = [] then
    [⟨.warning, "Empty list for " ++ key ++ " in " ++ entity
       ++ " at line number " ++ toString idx⟩]
  else []

/-- `check_id_type` (lines 242-257): when the record has an `_id` field,
require a dict containing `$oid` with a string value; each deviation yields
exactly one warning. -/
def check_id_type (entity : String) (item : Record) (idx : Nat) : List LogEntry :=
  match item.lookup ("_id") with
  | none => []
  | some v =>
    match v with
    | .obj fs =>
      match fs.lookup ("$oid") with
      | some (.str _) => []
      | some _ =>
        [⟨.warning, "Invalid $oid type in _id in " ++ entity
           ++ " at line number " ++ toString idx⟩]
      | none =>
        [⟨.warning, "Invalid _id type found in " ++ entity
           ++ " at line number " ++ toString idx⟩]
    | _ =>
      [⟨.warning, "Invalid _id type found in " ++ entity
         ++ " at line number " ++ toString idx⟩]

/-- The per-field dispatch of `check_field_types` (lines 152-162).  Python's
`isinstance` chain is mirrored: strings trigger the whole-record date check;
ints and floats — and booleans, which are `int` instances in Python — go to
the negative-numeric-field check; lists to the emptiness check; `None` to the
null warning; dict values match no branch. -/
def fieldDispatch (entity : String) (item : Record) (idx : Nat) (key : String) : Json → List LogEntry
  | .str _ => check_date_format entity item idx
  | .num q => check_negative_numeric_fields entity key q idx
  | .bool b => check_negative_numeric_fields entity key (if b then 1 else 0) idx
  | .arr l => check_empty_list entity key l idx
  | .null =>
    [⟨.warning, "Null value for " ++ key ++ " found in " ++ entity
       ++ " at line number " ++ toString idx⟩]
  | .obj _ => []

/-- `check_field_types` (lines 145-164): per-field dispatch over the record
in order, then the identifier-shape check once per record. -/
def check_field_types (entity : String) (item : Record) (idx : Nat) : List LogEntry :=
  (item.map (fun kv => fieldDispatch entity item idx kv.1 kv.2)).flatten
    ++ check_id_type entity item idx

/-- Keys of a record, in insertion order (`item.keys()`). -/
def recordKeys (item : Record) : List String :=
  item.map Prod.fst

/-- `check_schema_consistency` (lines 132-143): warn when the record's key
set differs from the baseline key set (set comparison, order-insensitive). -/
def check_schema_consistency (entity : String) (item : Record) (idx : Nat)
    (expectedKeys : List String) : List LogEntry :=
  if (recordKeys item).toFinset ≠ expectedKeys.toFinset then
    [⟨.warning, "Inconsistent schema in " ++ entity ++ " at line number " ++ toString idx⟩]
  else []

/-- The merged result built by `check_negative_values_in_item` (lines
122-123): the scan of the whole record with the empty path, updated with the
scan of the same whole record under the path `rewardsReceiptItemList`. -/
def mergedNegScan (item : Record) : PathMap :=
  pyMerge (check_negative_values (.obj item) "")
    (check_negative_values (.obj item) ("rewardsReceiptItemList"))

/-- `check_negative_values_in_item` (lines 116-130): report the merged scan
results, or the success message when the merge is empty. -/
def check_negative_values_in_item (entity : String) (item : Record) : List LogEntry :=
  let result := mergedNegScan item
  if result = [] then
    [⟨.info, "No negative values found in " ++ entity ++ "."⟩]
  else
    ⟨.warning, "Negative values found:"⟩
      :: result.map (fun kv => ⟨.info, kv.1 ++ ": " ++ renderRat kv.2⟩)

/-- `check_item` (lines 104-114): the three per-record checks, in order. -/
def check_item (entity : String) (expectedKeys : List String) (item : Record)
    (idx : Nat) : List LogEntry :=
  check_negative_values_in_item entity item
    ++ check_schema_consistency entity item idx expectedKeys
    ++ check_field_types entity item idx

/-- `item["$oid"]` inside `find_duplicates` (line 54): ok on a dict that has
the key, `KeyError` on a dict without it, `TypeError` on any non-dict. -/
def getOidEx : Json → Except String Json
  | .obj fs =>
    match fs.lookup ("$oid") with
    | some v => .ok v
    | none => .error ("KeyError: $oid")
  | _ => .error ("TypeError: indices")

/-- Whether Python can hash the value (`Counter` keys must be hashable;
dicts and lists raise `TypeError`). -/
def pyHashable : Json → Bool
  | .obj _ => false
  | .arr _ => false
  | _ => true

/-- Keys of Python's `Counter(oid_values)` in first-insertion order: the
distinct values of the list in first-seen order.  Written with explicit fuel
so the recursion is structural (the recursive call filters the tail). -/
def firstSeenFuel : Nat → List Json → List Json
  | 0, _ => []
  | _ + 1, [] => []
  | n + 1, x :: xs => x :: firstSeenFuel n (xs.filter (fun y => y ≠ x))

/-- Keys of `Counter(oid_values)`, first-seen order. -/
def firstSeen (l : List Json) : List Json :=
  firstSeenFuel l.length l

/-- The list comprehension `[item["$oid"] for item in data]` (line 54):
left to right, the first failing element raises. -/
def extractOids : List Json → Except String (List Json)
  | [] => .ok []
  | x :: xs =>
    match getOidEx x with
    | .error e => .error e
    | .ok v =>
      match extractOids xs with
      | .error e => .error e
      | .ok vs => .ok (v :: vs)

/-- `find_duplicates` (lines 45-57): extract each element's `$oid`, count
frequencies with `Counter`, and return the values whose frequency exceeds
one, in first-seen order.  Raises (returns `.error`) exactly where Python
does: on an element that is not a dict containing `$oid`, or on an
unhashable extracted value. -/
def find_duplicates (data : List Json) : Except String (List Json) :=
  match extractOids data with
  | .error e => .error e
  | .ok oidValues =>
    if oidValues.all pyHashable then
      .ok ((firstSeen oidValues).filter (fun v => oidValues.count v > 1))
    else .error ("TypeError: unhashable type")

/-- Rendering of an oid value by `logger.info(oid)`.  Duplicated oids are
strings in every run the claims touch; the remaining arms model `str()`
loosely and are unreachable from `check_id_uniqueness` (unhashable values
raise earlier). -/
def renderJson : Json → String
  | .str s => s
  | .num q => renderRat q
  | .bool b => if b then ("True") else ("False")
  | .null => "None"
  | .arr _ => "[...]"
  | .obj _ => "\x7b...\x7d"

/-- `check_id_uniqueness` (lines 259-273): when the baseline key set contains
`_id`, gather the `_id` values of the records that have one and report
duplicates found by `find_duplicates` (whose exceptions propagate). -/
def check_id_uniqueness (entity : String) (expectedKeys : List String)
    (data : List Record) : Except String (List LogEntry) :=
  if ("_id") ∈ expectedKeys then
    match find_duplicates (data.filterMap (fun item => item.lookup ("_id"))) with
    | .error e => .error e
    | .ok dups =>
      if dups ≠ [] then
        .ok (⟨.warning, "Duplicate OIDs found in " ++ entity⟩
          :: dups.map (fun oid => ⟨.info, renderJson oid⟩))
      else .ok [⟨.info, "No duplicates found in " ++ entity ++ "."⟩]
  else .ok []

/-- The mutable state of a `DataQualityChecker` instance: the entity name
derived from the file path, and the loaded collection (`None` before
`load_data` runs). -/
structure CheckerState where
  entity : String
  data : Option (List Record)
deriving DecidableEq

/-- `check_json_quality` (lines 90-102): return immediately on a falsy
(unset or empty) collection; otherwise compute the baseline key set from the
first record, run the per-record checks in order, then the id-uniqueness
check (whose exceptions propagate), then emit the completion notice.  The
state is returned alongside the emitted log to make mutation (there is none)
observable. -/
def check_json_quality (s : CheckerState) : CheckerState × Except String (List LogEntry) :=
  match s.data with
  | none => (s, .ok [])
  | some [] => (s, .ok [])
  | some (d0 :: rest) =>
    let expectedKeys := recordKeys d0
    let perItem :=
      ((d0 :: rest).enum.map (fun p => check_item s.entity expectedKeys p.2 p.1)).flatten
    match check_id_uniqueness s.entity expectedKeys (d0 :: rest) with
    | .error e => (s, .error e)
    | .ok uniqLogs =>
      (s, .ok (perItem ++ uniqLogs ++ [⟨.info, "Data quality check completed"⟩]))

/-- The tail of `load_data` (lines 42-43): after the decoded records are
materialized (file reading and JSON decoding are external collaborators),
an empty collection is reported as a non-fatal warning. -/
def load_data_empty_check (data : List Record) : List LogEntry :=
  if data = [] then [⟨.warning, "The file is empty"⟩] else []

/-- First index of a value in a list (0 when absent past the end), used to
state first-seen order. -/
def firstIdx : List Json → Json → Nat
  | [], _ => 0
  | x :: xs, a => if x = a then 0 else firstIdx xs a + 1

/-- The claim's reading of the second scan of `check_negative_values_in_item`:
a scan *scoped to* the record's `rewardsReceiptItemList` sub-structure (when
present), merged with the whole-record scan.  Written from the claim's words,
to be compared with `mergedNegScan`, which embeds the source. -/
def mergedNegScanClaim (item : Record) : PathMap :=
  pyMerge (check_negative_values (.obj item) "")
    (match item.lookup ("rewardsReceiptItemList") with
     | some sub => check_negative_values sub ("rewardsReceiptItemList")
     | none => [])

/-- Wrapped-identifier test used by the identifier-shape claim: a dict
containing `$oid` with a string value. -/
def isWrappedStrId : Json → Bool
  | .obj fs =>
    match fs.lookup ("$oid") with
    | some (.str _) => true
    | _ => false
  | _ => false

/-- Shape under which an `_id` value passes `find_duplicates` without
raising: a dict containing `$oid` whose value is hashable. -/
def wrappedHashableOid : Json → Bool
  | .obj fs =>
    match fs.lookup ("$oid") with
    | some w => pyHashable w
    | none => false
  | _ => false

theorem pyInsert_ne_nil (acc : PathMap) (k : String) (q : Rat) : pyInsert acc k q ≠ [] := by
  cases acc with
  | nil => simp [pyInsert]
  | cons a t =>
    rw [pyInsert]
    split
    · simp
    · simp

theorem pyMerge_eq_nil_iff : ∀ (upd acc : PathMap), pyMerge acc upd = [] ↔ acc = [] ∧ upd = []
  | [], acc => by simp [pyMerge]
  | kv :: rest, acc => by
    have h1 : pyMerge acc (kv :: rest) = pyMerge (pyInsert acc kv.1 kv.2) rest := rfl
    rw [h1, pyMerge_eq_nil_iff rest (pyInsert acc kv.1 kv.2)]
    simp [pyInsert_ne_nil]

theorem pyInsert_neg {acc : PathMap} {k : String} {q : Rat}
    (ha : ∀ kv ∈ acc, kv.2 < 0) (hq : q < 0) :
    ∀ kv ∈ pyInsert acc k q, kv.2 < 0 := by
  intro kv hkv
  rw [pyInsert] at hkv
  split at hkv
  · rw [List.mem_map] at hkv
    obtain ⟨kv0, hkv0, hkveq⟩ := hkv
    by_cases hk : kv0.1 = k
    · rw [if_pos hk] at hkveq
      rw [← hkveq]
      exact hq
    · rw [if_neg hk] at hkveq
      rw [← hkveq]
      exact ha kv0 hkv0
  · rw [List.mem_append] at hkv
    rcases hkv with h | h
    · exact ha kv h
    · rw [List.mem_singleton] at h
      rw [h]
      exact hq

theorem pyMerge_neg : ∀ (upd acc : PathMap), (∀ kv ∈ acc, kv.2 < 0) → (∀ kv ∈ upd, kv.2 < 0) →
    ∀ kv ∈ pyMerge acc upd, kv.2 < 0
  | [], _ => fun ha _ => ha
  | kv0 :: rest, acc => by
    intro ha hu
    have h1 : pyMerge acc (kv0 :: rest) = pyMerge (pyInsert acc kv0.1 kv0.2) rest := rfl
    rw [h1]
    refine pyMerge_neg rest (pyInsert acc kv0.1 kv0.2) ?_ ?_
    · exact pyInsert_neg ha (hu kv0 (List.mem_cons_self _ _))
    · intro kv2 h2
      exact hu kv2 (List.mem_cons_of_mem _ h2)

mutual

theorem cnv_eq_nil_iff : ∀ (d : Json) (p : String), check_negative_values d p = [] ↔ hasNegDictLeaf d = false
  | .null, _ => by simp [check_negative_values, hasNegDictLeaf]
  | .bool _, _ => by simp [check_negative_values, hasNegDictLeaf]
  | .num _, _ => by simp [check_negative_values, hasNegDictLeaf]
  | .str _, _ => by simp [check_negative_values, hasNegDictLeaf]
  | .arr items, p => by
    have h := cnvItems_eq_nil_iff items p 0 []
    simpa [check_negative_values, hasNegDictLeaf] using h
  | .obj fields, p => by
    have h := cnvFields_eq_nil_iff fields p []
    simpa [check_negative_values, hasNegDictLeaf] using h

theorem cnvFields_eq_nil_iff : ∀ (fs : List (String × Json)) (p : String) (acc : PathMap),
    cnvFields fs p acc = [] ↔ acc = [] ∧ hndFields fs = false
  | [], _, acc => by simp [cnvFields, hndFields]
  | (key, value) :: rest, p, acc => by
    cases value with
    | null =>
      simp only [cnvFields]
      rw [cnvFields_eq_nil_iff rest p acc]
      simp [hndFields, negLeaf]
    | bool b =>
      simp only [cnvFields]
      rw [cnvFields_eq_nil_iff rest p acc]
      simp [hndFields, negLeaf]
    | num q =>
      simp only [cnvFields]
      by_cases hlt : q < 0
      · rw [if_pos hlt, cnvFields_eq_nil_iff rest p _]
        simp [hndFields, negLeaf, hlt, pyInsert_ne_nil]
      · rw [if_neg hlt, cnvFields_eq_nil_iff rest p acc]
        simp [hndFields, negLeaf, hlt]
    | str s =>
      simp only [cnvFields]
      cases hq : pyFloat? s with
      | none =>
        simp only [hq]
        rw [cnvFields_eq_nil_iff rest p acc]
        simp [hndFields, negLeaf, hq]
      | some q =>
        simp only [hq]
        by_cases hlt : q < 0
        · rw [if_pos hlt, cnvFields_eq_nil_iff rest p _]
          simp [hndFields, negLeaf, hq, hlt, pyInsert_ne_nil]
        · rw [if_neg hlt, cnvFields_eq_nil_iff rest p acc]
          simp [hndFields, negLeaf, hq, hlt]
    | obj fs2 =>
      simp only [cnvFields]
      rw [cnvFields_eq_nil_iff rest p _, pyMerge_eq_nil_iff, cnv_eq_nil_iff (.obj fs2) _]
      simp only [hndFields]
      simp [Bool.or_eq_false_iff, and_assoc]
    | arr its =>
      simp only [cnvFields]
      rw [cnvFields_eq_nil_iff rest p _, pyMerge_eq_nil_iff, cnv_eq_nil_iff (.arr its) _]
      simp only [hndFields]
      simp [Bool.or_eq_false_iff, and_assoc]

theorem cnvItems_eq_nil_iff : ∀ (its : List Json) (p : String) (i : Nat) (acc : PathMap),
    cnvItems its p i acc = [] ↔ acc = [] ∧ hndItems its = false
  | [], _, _, acc => by simp [cnvItems, hndItems]
  | item :: rest, p, i, acc => by
    simp only [cnvItems]
    rw [cnvItems_eq_nil_iff rest p (i + 1) _, pyMerge_eq_nil_iff, cnv_eq_nil_iff item _]
    simp only [hndItems]
    simp [Bool.or_eq_false_iff, and_assoc]

end

mutual

theorem cnv_neg : ∀ (d : Json) (p : String) (kv : String × Rat), kv ∈ check_negative_values d p → kv.2 < 0
  | .null, _ => by intro kv h; simp [check_negative_values] at h
  | .bool _, _ => by intro kv h; simp [check_negative_values] at h
  | .num _, _ => by intro kv h; simp [check_negative_values] at h
  | .str _, _ => by intro kv h; simp [check_negative_values] at h
  | .arr items, p => by
    intro kv h
    refine cnvItems_neg items p 0 [] (by simp) kv ?_
    simpa [check_negative_values] using h
  | .obj fields, p => by
    intro kv h
    refine cnvFields_neg fields p [] (by simp) kv ?_
    simpa [check_negative_values] using h

theorem cnvFields_neg : ∀ (fs : List (String × Json)) (p : String) (acc : PathMap),
    (∀ kv ∈ acc, kv.2 < 0) → ∀ kv ∈ cnvFields fs p acc, kv.2 < 0
  | [], _, _ => fun ha => ha
  | (key, value) :: rest, p, acc => by
    intro ha
    cases value with
    | null =>
      simp only [cnvFields]
      exact cnvFields_neg rest p acc ha
    | bool b =>
      simp only [cnvFields]
      exact cnvFields_neg rest p acc ha
    | num q =>
      simp only [cnvFields]
      by_cases hlt : q < 0
      · rw [if_pos hlt]
        exact cnvFields_neg rest p _ (pyInsert_neg ha hlt)
      · rw [if_neg hlt]
        exact cnvFields_neg rest p acc ha
    | str s =>
      simp only [cnvFields]
      cases hq : pyFloat? s with
      | none =>
        simp only [hq]
        exact cnvFields_neg rest p acc ha
      | some q =>
        simp only [hq]
        by_cases hlt : q < 0
        · rw [if_pos hlt]
          exact cnvFields_neg rest p _ (pyInsert_neg ha hlt)
        · rw [if_neg hlt]
          exact cnvFields_neg rest p acc ha
    | obj fs2 =>
      simp only [cnvFields]
      exact cnvFields_neg rest p _ (pyMerge_neg _ _ ha (cnv_neg (.obj fs2) _))
    | arr its =>
      simp only [cnvFields]
      exact cnvFields_neg rest p _ (pyMerge_neg _ _ ha (cnv_neg (.arr its) _))

theorem cnvItems_neg : ∀ (its : List Json) (p : String) (i : Nat) (acc : PathMap),
    (∀ kv ∈ acc, kv.2 < 0) → ∀ kv ∈ cnvItems its p i acc, kv.2 < 0
  | [], _, _, _ => fun ha => ha
  | item :: rest, p, i, acc => by
    intro ha
    simp only [cnvItems]
    exact cnvItems_neg rest p (i + 1) _ (pyMerge_neg _ _ ha (cnv_neg item _))

end

theorem firstIdx_filter_lt : ∀ (xs : List Json) (p : Json → Bool) (a b : Json),
    a ∈ xs.filter p → b ∈ xs.filter p →
    firstIdx (xs.filter p) a < firstIdx (xs.filter p) b →
    firstIdx xs a < firstIdx xs b
  | [], _, a, b => by simp
  | y :: ys, p, a, b => by
    intro ha hb hlt
    by_cases hpy : p y = true
    · rw [List.filter_cons_of_pos hpy] at ha hb hlt
      by_cases hyb : y = b
      · exfalso
        simp only [firstIdx] at hlt
        rw [if_pos hyb] at hlt
        omega
      · by_cases hya : y = a
        · simp only [firstIdx]
          rw [if_pos hya, if_neg hyb]
          omega
        · have ha' : a ∈ ys.filter p := by
            rcases List.mem_cons.mp ha with h | h
            · exact absurd h.symm hya
            · exact h
          have hb' : b ∈ ys.filter p := by
            rcases List.mem_cons.mp hb with h | h
            · exact absurd h.symm hyb
            · exact h
          simp only [firstIdx] at hlt
          rw [if_neg hya, if_neg hyb] at hlt
          have hlt' : firstIdx (ys.filter p) a < firstIdx (ys.filter p) b := by omega
          have hrec := firstIdx_filter_lt ys p a b ha' hb' hlt'
          simp only [firstIdx]
          rw [if_neg hya, if_neg hyb]
          omega
    · have hpy' : p y = false := by
        cases hc : p y with
        | true => exact absurd hc hpy
        | false => rfl
      rw [List.filter_cons_of_neg (by simp [hpy'])] at ha hb hlt
      have hya : y ≠ a := by
        intro hh
        exact hpy (hh ▸ List.of_mem_filter ha)
      have hyb : y ≠ b := by
        intro hh
        exact hpy (hh ▸ List.of_mem_filter hb)
      have hrec := firstIdx_filter_lt ys p a b ha hb hlt
      simp only [firstIdx]
      rw [if_neg hya, if_neg hyb]
      omega

theorem firstSeenFuel_mem : ∀ (n : Nat) (l : List Json), l.length ≤ n →
    ∀ (a : Json), a ∈ firstSeenFuel n l ↔ a ∈ l
  | 0, l => by
    intro h a
    rw [Nat.le_zero] at h
    rw [List.length_eq_zero] at h
    subst h
    simp [firstSeenFuel]
  | _ + 1, [] => by
    intro _ a
    simp [firstSeenFuel]
  | n + 1, x :: xs => by
    intro h a
    have hlen : (xs.filter (fun y => y ≠ x)).length ≤ n := by
      have h2 := List.length_filter_le (fun y => (decide (y ≠ x))) xs
      simp only [List.length_cons] at h
      omega
    simp only [firstSeenFuel, List.mem_cons]
    rw [firstSeenFuel_mem n _ hlen a]
    by_cases hax : a = x
    · subst hax
      simp
    · simp [List.mem_filter, hax]

theorem firstSeenFuel_pairwise : ∀ (n : Nat) (l : List Json), l.length ≤ n →
    (firstSeenFuel n l).Pairwise (fun a b => firstIdx l a < firstIdx l b)
  | 0, l => by
    intro _
    simp [firstSeenFuel]
  | _ + 1, [] => by
    intro _
    simp [firstSeenFuel]
  | n + 1, x :: xs => by
    intro h
    have hlen : (xs.filter (fun y => y ≠ x)).length ≤ n := by
      have h2 := List.length_filter_le (fun y => (decide (y ≠ x))) xs
      simp only [List.length_cons] at h
      omega
    simp only [firstSeenFuel]
    refine List.pairwise_cons.mpr ⟨?_, ?_⟩
    · intro b hb
      have hbf : b ∈ xs.filter (fun y => y ≠ x) := (firstSeenFuel_mem n _ hlen b).mp hb
      have hbx : b ≠ x := by
        have h2 := List.of_mem_filter hbf
        simpa using h2
      simp only [firstIdx]
      rw [if_pos trivial, if_neg (fun hh => hbx hh.symm)]
      omega
    · have ih := firstSeenFuel_pairwise n (xs.filter (fun y => y ≠ x)) hlen
      refine ih.imp_of_mem ?_
      intro a b ha hb hlt
      have haf := (firstSeenFuel_mem n _ hlen a).mp ha
      have hbf := (firstSeenFuel_mem n _ hlen b).mp hb
      have hax : a ≠ x := by simpa using List.of_mem_filter haf
      have hbx : b ≠ x := by simpa using List.of_mem_filter hbf
      have h2 := firstIdx_filter_lt xs _ a b haf hbf hlt
      simp only [firstIdx]
      rw [if_neg (fun hh => hax hh.symm), if_neg (fun hh => hbx hh.symm)]
      omega

theorem firstSeen_mem (l : List Json) (a : Json) : a ∈ firstSeen l ↔ a ∈ l :=
  firstSeenFuel_mem l.length l (le_refl _) a

theorem firstSeen_pairwise (l : List Json) :
    (firstSeen l).Pairwise (fun a b => firstIdx l a < firstIdx l b) :=
  firstSeenFuel_pairwise l.length l (le_refl _)

theorem firstSeen_nodup (l : List Json) : (firstSeen l).Nodup := by
  refine (firstSeen_pairwise l).imp ?_
  intro a b hlt hab
  rw [hab] at hlt
  exact lt_irrefl _ hlt

theorem extractOids_ok : ∀ (l : List Json), (∀ v ∈ l, wrappedHashableOid v = true) →
    ∃ os : List Json, extractOids l = .ok os ∧ os.all pyHashable = true := by
  intro l
  induction l with
  | nil => exact fun _ => ⟨[], rfl, rfl⟩
  | cons x xs ih =>
    intro h
    obtain ⟨os, hos, hall⟩ := ih (fun v hv => h v (List.mem_cons_of_mem _ hv))
    have hx := h x (List.mem_cons_self _ _)
    cases x with
    | null => simp [wrappedHashableOid] at hx
    | bool b => simp [wrappedHashableOid] at hx
    | num q => simp [wrappedHashableOid] at hx
    | str s => simp [wrappedHashableOid] at hx
    | arr its => simp [wrappedHashableOid] at hx
    | obj fs =>
      rw [wrappedHashableOid] at hx
      cases hw : fs.lookup ("$oid") with
      | none =>
        rw [hw] at hx
        simp at hx
      | some w =>
        rw [hw] at hx
        have hx2 : pyHashable w = true := by simpa using hx
        refine ⟨w :: os, ?_, ?_⟩
        · simp only [extractOids, getOidEx, hw, hos]
        · simp only [List.all_cons, hx2, hall, Bool.and_self]

theorem find_duplicates_ok (ids : List Json) (h : ∀ v ∈ ids, wrappedHashableOid v = true) :
    ∃ dups, find_duplicates ids = .ok dups := by
  obtain ⟨os, hos, hall⟩ := extractOids_ok ids h
  refine ⟨(firstSeen os).filter (fun v => os.count v > 1), ?_⟩
  simp [find_duplicates, hos, hall]

/-- C7: when the loaded record collection is empty, `check_json_quality`
returns immediately without raising and emits nothing (no per-record check,
no id-uniqueness check, no completion notice), while the emptiness itself is
reported as a non-fatal warning by the tail of `load_data`; a non-empty
collection gets no such load-time warning. -/
theorem c7_empty_collection (e : String) :
    check_json_quality ⟨e, some []⟩ = (⟨e, some []⟩, .ok [])
    ∧ load_data_empty_check [] = [⟨Level.warning, "The file is empty"⟩]
    ∧ ∀ (r : Record) (rs : List Record), load_data_empty_check (r :: rs) = [] := by
  refine ⟨rfl, rfl, ?_⟩
  intro r rs
  rw [load_data_empty_check, if_neg (by simp)]

/-- C8: `check_json_quality` never mutates the checker state (in particular
the loaded collection and its records), so a second run on the state left by
the first produces exactly the same outcome. -/
theorem c8_no_mutation_idempotent (s : CheckerState) :
    (check_json_quality s).1 = s
    ∧ (check_json_quality ((check_json_quality s).1)).2 = (check_json_quality s).2 := by
  have h1 : (check_json_quality s).1 = s := by
    rcases s with ⟨e, d⟩
    rcases d with _ | l
    · rfl
    · rcases l with _ | ⟨d0, rest⟩
      · rfl
      · simp only [check_json_quality]
        split
        · rfl
        · rfl
  exact ⟨h1, by rw [h1]⟩

/-- C9: the field-type dispatch sends a boolean-valued field to the
negative-numeric-field branch (Python booleans are `int` instances), where it
never warns because neither `true` (1) nor `false` (0) is negative — so a
boolean field contributes no log entry and never reaches the date,
empty-list, or null branches. -/
theorem c9_bool_dispatch (entity : String) (item : Record) (idx : Nat) (key : String) (b : Bool) :
    fieldDispatch entity item idx key (.bool b)
      = check_negative_numeric_fields entity key (if b then 1 else 0) idx
    ∧ fieldDispatch entity item idx key (.bool b) = [] := by
  refine ⟨rfl, ?_⟩
  have h0 : ¬ ((0 : Rat) < 0) := lt_irrefl 0
  have h1 : ¬ ((1 : Rat) < 0) := by norm_num
  cases b
  · rw [show fieldDispatch entity item idx key (.bool false)
        = check_negative_numeric_fields entity key 0 idx from rfl]
    rw [check_negative_numeric_fields, if_neg (fun hc => h0 hc.2)]
  · rw [show fieldDispatch entity item idx key (.bool true)
        = check_negative_numeric_fields entity key 1 idx from rfl]
    rw [check_negative_numeric_fields, if_neg (fun hc => h1 hc.2)]

/-- C10: calling `check_json_quality` before any data has been loaded (the
collection still `None`) returns immediately with no error, no finding and
no completion notice, exactly like the empty-collection case. -/
theorem c10_unloaded_state (e : String) :
    check_json_quality ⟨e, none⟩ = (⟨e, none⟩, .ok [])
    ∧ (check_json_quality ⟨e, none⟩).2 = (check_json_quality ⟨e, some []⟩).2 :=
  ⟨rfl, rfl⟩

/-- C6: the identifier-shape check emits exactly one warning when the record
has an `_id` field deviating from the wrapped-identifier shape (not a dict, a
dict without `$oid`, or a dict whose `$oid` value is not a string), and emits
nothing when `_id` is well shaped or absent. -/
theorem c6_id_shape (entity : String) (item : Record) (idx : Nat) :
    (∀ v, item.lookup ("_id") = some v → isWrappedStrId v = false →
      ∃ m, check_id_type entity item idx = [⟨Level.warning, m⟩])
    ∧ (∀ v, item.lookup ("_id") = some v → isWrappedStrId v = true →
      check_id_type entity item idx = [])
    ∧ (item.lookup ("_id") = none → check_id_type entity item idx = []) := by
  refine ⟨?_, ?_, ?_⟩
  · intro v hv hbad
    simp only [check_id_type, hv]
    cases v with
    | obj fs =>
      rw [isWrappedStrId] at hbad
      cases hw : fs.lookup ("$oid") with
      | none =>
        simp only [hw]
        exact ⟨_, rfl⟩
      | some w =>
        rw [hw] at hbad
        cases w with
        | str s => simp at hbad
        | null => simp only [hw]; exact ⟨_, rfl⟩
        | bool b => simp only [hw]; exact ⟨_, rfl⟩
        | num q => simp only [hw]; exact ⟨_, rfl⟩
        | arr l => simp only [hw]; exact ⟨_, rfl⟩
        | obj f2 => simp only [hw]; exact ⟨_, rfl⟩
    | null => exact ⟨_, rfl⟩
    | bool b => exact ⟨_, rfl⟩
    | num q => exact ⟨_, rfl⟩
    | str s => exact ⟨_, rfl⟩
    | arr l => exact ⟨_, rfl⟩
  · intro v hv hgood
    simp only [check_id_type, hv]
    cases v with
    | obj fs =>
      rw [isWrappedStrId] at hgood
      cases hw : fs.lookup ("$oid") with
      | none =>
        rw [hw] at hgood
        simp at hgood
      | some w =>
        rw [hw] at hgood
        cases w with
        | str s => simp only [hw]
        | null => simp at hgood
        | bool b => simp at hgood
        | num q => simp at hgood
        | arr l => simp at hgood
        | obj f2 => simp at hgood
    | null => simp [isWrappedStrId] at hgood
    | bool b => simp [isWrappedStrId] at hgood
    | num q => simp [isWrappedStrId] at hgood
    | str s => simp [isWrappedStrId] at hgood
    | arr l => simp [isWrappedStrId] at hgood
  · intro hnone
    simp only [check_id_type, hnone]

/-- Witness for C6 at concrete inputs: a string `_id` warns, a wrapped string
identifier is silent, and a record without `_id` is silent. -/
theorem c6_id_shape_witness :
    (∃ m, check_id_type ("users") [(("_id"), Json.str ("abc"))] 0 = [⟨Level.warning, m⟩])
    ∧ check_id_type ("users") [(("_id"), Json.obj [(("$oid"), Json.str ("abc"))])] 1 = []
    ∧ check_id_type ("users") [(("x"), Json.null)] 2 = [] :=
  ⟨(c6_id_shape ("users") [(("_id"), Json.str ("abc"))] 0).1 (Json.str ("abc")) rfl (by decide),
   (c6_id_shape ("users") [(("_id"), Json.obj [(("$oid"), Json.str ("abc"))])] 1).2.1
     (Json.obj [(("$oid"), Json.str ("abc"))]) rfl (by decide),
   (c6_id_shape ("users") [(("x"), Json.null)] 2).2.2 rfl⟩

/-- C4: for a recognized date field absent from the record, the entity policy
of `check_date_format` is positional — "receipts" warns for every field
except the first of the fixed list (`lastLogin`), "users" warns only for
`lastLogin`, and any other entity never warns about missing date fields. -/
theorem c4_missing_date_policy (entity : String) (item : Record) (idx : Nat) (field : String)
    (hf : field ∈ date_fields) (habs : item.lookup field = none) :
    dateFieldLog entity item idx field =
      if entity = "receipts" ∧ field ≠ "lastLogin" then [missingDateWarn ("receipts") field idx]
      else if entity = "users" ∧ field = "lastLogin" then [missingDateWarn ("users") field idx]
      else [] := by
  simp only [dateFieldLog, habs]
  have h1 : (field ∈ date_fields.drop 1) ↔ field ≠ ("lastLogin") := by
    simp only [date_fields] at hf
    simp only [List.mem_cons, List.not_mem_nil, or_false] at hf
    rcases hf with rfl | rfl | rfl | rfl | rfl | rfl | rfl <;> decide
  have h2 : (field ∈ date_fields.take 1) ↔ field = ("lastLogin") := by
    simp [date_fields]
  simp only [h1, h2]

/-- Witness for C4: a "receipts" record missing `purchaseDate` (the record is
empty, so the field is absent) lands in the first policy branch. -/
theorem c4_missing_date_policy_witness :
    dateFieldLog ("receipts") [] 0 ("purchaseDate") =
      if ("receipts" : String) = "receipts" ∧ ("purchaseDate" : String) ≠ "lastLogin"
      then [missingDateWarn ("receipts") ("purchaseDate") 0]
      else if ("receipts" : String) = "users" ∧ ("purchaseDate" : String) = "lastLogin"
      then [missingDateWarn ("users") ("purchaseDate") 0]
      else [] :=
  c4_missing_date_policy ("receipts") [] 0 ("purchaseDate") (by decide) rfl

/-- Counterexample for C2 as stated: on the record `{"simpleValue": -1}`
(which has no `rewardsReceiptItemList` sub-structure at all) the code's
second scan re-walks the whole record under the path prefix
`rewardsReceiptItemList`, so the merged mapping reports the phantom path
`rewardsReceiptItemList.simpleValue`; a scan genuinely scoped to the
sub-structure (`mergedNegScanClaim`, written from the claim's words) does
not. -/
theorem c2_counterexample :
    (mergedNegScan [(("simpleValue"), Json.num (-1))]).lookup
        ("rewardsReceiptItemList.simpleValue") = some (-1)
    ∧ (mergedNegScanClaim [(("simpleValue"), Json.num (-1))]).lookup
        ("rewardsReceiptItemList.simpleValue") = none
    ∧ mergedNegScan [(("simpleValue"), Json.num (-1))]
        ≠ mergedNegScanClaim [(("simpleValue"), Json.num (-1))] := by
  refine ⟨rfl, rfl, ?_⟩
  decide

/-- C2 (amended): the orchestrator runs the negative-value scan twice — once
with the empty path prefix and once again over the same whole record with
path prefix `rewardsReceiptItemList` — merges the two mappings, and reports
the success message exactly when neither scan found anything, i.e. exactly
when the record holds no negative value at a mapping-entry position; when a
negative exists, the warning header is reported instead. -/
theorem c2_double_scan_merge (e : String) (item : Record) :
    mergedNegScan item
      = pyMerge (check_negative_values (.obj item) "")
          (check_negative_values (.obj item) ("rewardsReceiptItemList"))
    ∧ (check_negative_values_in_item e item
        = [⟨Level.info, "No negative values found in " ++ e ++ "."⟩]
        ↔ hasNegDictLeaf (.obj item) = false)
    ∧ (hasNegDictLeaf (.obj item) = true →
        ⟨Level.warning, "Negative values found:"⟩ ∈ check_negative_values_in_item e item) := by
  have hm : mergedNegScan item = [] ↔ hasNegDictLeaf (.obj item) = false := by
    rw [mergedNegScan, pyMerge_eq_nil_iff, cnv_eq_nil_iff, cnv_eq_nil_iff]
    simp
  refine ⟨rfl, ?_, ?_⟩
  · constructor
    · intro h
      by_contra hneg
      have hne : mergedNegScan item ≠ [] := fun hnil => hneg (hm.mp hnil)
      simp only [check_negative_values_in_item] at h
      rw [if_neg hne] at h
      simp at h
    · intro h
      simp only [check_negative_values_in_item]
      rw [if_pos (hm.mpr h)]
  · intro h
    have hne : mergedNegScan item ≠ [] := by
      intro hnil
      have h2 := hm.mp hnil
      rw [h2] at h
      simp at h
    simp only [check_negative_values_in_item]
    rw [if_neg hne]
    exact List.mem_cons_self _ _

/-- Witness for C2 (amended): a negative-free record gets the success
message; a record with a negative value gets the warning header. -/
theorem c2_double_scan_merge_witness :
    check_negative_values_in_item ("brands") [(("x"), Json.num 5)]
      = [⟨Level.info, "No negative values found in " ++ "brands" ++ "."⟩]
    ∧ ⟨Level.warning, "Negative values found:"⟩
        ∈ check_negative_values_in_item ("brands") [(("y"), Json.num (-2))] :=
  ⟨(c2_double_scan_merge ("brands") [(("x"), Json.num 5)]).2.1.mpr (by decide),
   (c2_double_scan_merge ("brands") [(("y"), Json.num (-2))]).2.2 (by decide)⟩

/-- Counterexample for C5 as stated: the structure `{"l": [-1]}` contains the
negative number -1 (as a direct list element), yet the scanner returns the
empty mapping — negative scalars that are direct list elements fall through
the dict/list `isinstance` tests and are never examined. -/
theorem c5_counterexample :
    hasNegAnywhere (Json.obj [(("l"), Json.arr [Json.num (-1)])]) = true
    ∧ check_negative_values (Json.obj [(("l"), Json.arr [Json.num (-1)])]) "" = [] :=
  ⟨by decide, by decide⟩

/-- C5 (amended): for every nested structure and every starting path prefix,
the scanner returns a mapping from dot/bracket path strings to the negative
numeric values found at mapping-entry positions (dict values, reachable
through dicts and lists); negative numbers occurring as direct list elements
or as the root scalar are not reported.  It returns the empty mapping, not an
error, exactly when no such value exists; string leaves are coerced with
`float` before the negativity test and coercion failures are silently
skipped; every reported value is negative. -/
theorem c5_scanner :
    check_negative_values (Json.obj [(("value"), Json.num (-5))]) "" = [(("value"), -5)]
    ∧ check_negative_values (Json.obj [(("value"), Json.num 10)]) "" = []
    ∧ check_negative_values (Json.obj [(("a"), Json.obj [(("b"), Json.num (-3))])]) ""
        = [(("a.b"), -3)]
    ∧ check_negative_values (Json.obj [(("list"), Json.arr [Json.obj [(("x"), Json.num (-1))]])]) ""
        = [(("list[0].x"), -1)]
    ∧ check_negative_values (Json.obj [(("s"), Json.str ("-7"))]) "" = [(("s"), -7)]
    ∧ check_negative_values (Json.obj [(("s"), Json.str ("abc"))]) "" = []
    ∧ (∀ (d : Json) (p : String), check_negative_values d p = [] ↔ hasNegDictLeaf d = false)
    ∧ (∀ (d : Json) (p : String) (kv : String × Rat), kv ∈ check_negative_values d p → kv.2 < 0) :=
  ⟨by decide, by decide, by decide, by decide, by decide, by decide,
   cnv_eq_nil_iff, cnv_neg⟩

/-- Witness for C5 (amended): the reported entry of `{"value": -5}` is
negative, and the emptiness characterization holds at `{"z": 3}`. -/
theorem c5_scanner_witness :
    ((("value"), (-5 : Rat)) ∈ check_negative_values (Json.obj [(("value"), Json.num (-5))]) "")
    ∧ ((("value"), (-5 : Rat)).2 < 0)
    ∧ (check_negative_values (Json.obj [(("z"), Json.num 3)]) "" = []
        ↔ hasNegDictLeaf (Json.obj [(("z"), Json.num 3)]) = false) :=
  ⟨by decide,
   c5_scanner.2.2.2.2.2.2.2 (Json.obj [(("value"), Json.num (-5))]) ""
     ((("value"), -5)) (by decide),
   c5_scanner.2.2.2.2.2.2.1 (Json.obj [(("z"), Json.num 3)]) ""⟩

/-- Counterexample for C1 as stated: a non-empty collection whose single
record has `_id` that is not a mapping makes the full check raise — the
malformed identifier is logged non-fatally by `check_id_type`, but
`check_id_uniqueness` then feeds it to `find_duplicates`, whose subscript
`item["$oid"]` raises, so the run never reaches the completion notice. -/
theorem c1_counterexample :
    (check_json_quality ⟨("receipts"), some [[(("_id"), Json.str ("abc"))]]⟩).2
      = .error ("TypeError: indices")
    ∧ ([[(("_id"), Json.str ("abc"))]] : List Record) ≠ [] :=
  ⟨rfl, by decide⟩

/-- C1 (amended): for every loaded non-empty record collection in which every
record's `_id` value, where present, is a mapping containing `$oid` with a
hashable value, the full check raises no error and runs to completion with
the final completion notice as its last log entry — regardless of any other
anomalies (duplicates, schema drift, negative values, bad dates, null
fields, empty lists, non-string `$oid` payloads) in the records. -/
theorem c1_nonfatal_runs (s : CheckerState) (d0 : Record) (rest : List Record)
    (hdata : s.data = some (d0 :: rest))
    (hids : (d0 :: rest).all
      (fun item => match item.lookup ("_id") with
        | some v => wrappedHashableOid v
        | none => true) = true) :
    ∃ logs, (check_json_quality s).2 = .ok logs
      ∧ logs.getLast? = some ⟨Level.info, "Data quality check completed"⟩ := by
  rcases s with ⟨e, dOpt⟩
  have hd : dOpt = some (d0 :: rest) := hdata
  subst hd
  have hok : ∃ ul, check_id_uniqueness e (recordKeys d0) (d0 :: rest) = .ok ul := by
    rw [check_id_uniqueness]
    by_cases hmem : ("_id") ∈ recordKeys d0
    · rw [if_pos hmem]
      have hwrap : ∀ v ∈ (d0 :: rest).filterMap (fun item => item.lookup ("_id")),
          wrappedHashableOid v = true := by
        intro v hv
        rw [List.mem_filterMap] at hv
        obtain ⟨it, hit, hlk⟩ := hv
        have h3 := List.all_eq_true.mp hids it hit
        rw [hlk] at h3
        simpa using h3
      obtain ⟨dups, hd2⟩ :=
        find_duplicates_ok ((d0 :: rest).filterMap (fun item => item.lookup ("_id"))) hwrap
      simp only [hd2]
      by_cases hne : dups ≠ []
      · rw [if_pos hne]
        exact ⟨_, rfl⟩
      · rw [if_neg hne]
        exact ⟨_, rfl⟩
    · rw [if_neg hmem]
      exact ⟨[], rfl⟩
  obtain ⟨ul, hul⟩ := hok
  have hsplit : (check_json_quality ⟨e, some (d0 :: rest)⟩).2
      = .ok ((((d0 :: rest).enum.map
            (fun p => check_item e (recordKeys d0) p.2 p.1)).flatten)
          ++ ul ++ [⟨Level.info, "Data quality check completed"⟩]) := by
    simp only [check_json_quality, hul]
  refine ⟨_, hsplit, ?_⟩
  exact List.getLast?_concat _

/-- Witness for C1 (amended): a one-record "users" collection with a wrapped
identifier and other anomalies (a negative `balance`, missing `lastLogin`)
completes with the completion notice last. -/
theorem c1_nonfatal_runs_witness :
    (([[(("_id"), Json.obj [(("$oid"), Json.str ("1"))]), (("balance"), Json.num (-4))]]
        : List Record).all
      (fun item => match item.lookup ("_id") with
        | some v => wrappedHashableOid v
        | none => true) = true)
    ∧ ∃ logs,
        (check_json_quality ⟨("users"),
          some [[(("_id"), Json.obj [(("$oid"), Json.str ("1"))]), (("balance"), Json.num (-4))]]⟩).2
          = .ok logs
        ∧ logs.getLast? = some ⟨Level.info, "Data quality check completed"⟩ :=
  ⟨by decide,
   c1_nonfatal_runs
     ⟨("users"), some [[(("_id"), Json.obj [(("$oid"), Json.str ("1"))]), (("balance"), Json.num (-4))]]⟩
     [(("_id"), Json.obj [(("$oid"), Json.str ("1"))]), (("balance"), Json.num (-4))] []
     rfl (by decide)⟩

/-- C3: on a list of wrapped identifiers, `find_duplicates` returns exactly
the inner `$oid` values whose frequency exceeds one, without repetition and
in first-seen order; on `[{"$oid":"1"},{"$oid":"2"},{"$oid":"1"}]` it returns
exactly `["1"]` (so not `"2"`), and with no repeated value it returns the
empty list. -/
theorem c3_find_duplicates (l : List String) (data : List Json)
    (hdata : data = l.map (fun s => Json.obj [(("$oid"), Json.str s)])) :
    ∃ dups : List Json,
      find_duplicates data = .ok dups
      ∧ (∀ v, v ∈ dups ↔ ∃ s, v = Json.str s ∧ 1 < l.count s)
      ∧ dups.Nodup
      ∧ dups.Pairwise (fun a b => firstIdx (l.map Json.str) a < firstIdx (l.map Json.str) b)
      ∧ find_duplicates (([("1"), ("2"), ("1")] : List String).map
          (fun s => Json.obj [(("$oid"), Json.str s)])) = .ok [Json.str ("1")]
      ∧ find_duplicates (([("1"), ("2")] : List String).map
          (fun s => Json.obj [(("$oid"), Json.str s)])) = .ok [] := by
  subst hdata
  have hinj : Function.Injective Json.str := by
    intro a b h
    rw [Json.str.injEq] at h
    exact h
  have hex : extractOids (l.map (fun s => Json.obj [(("$oid"), Json.str s)]))
      = .ok (l.map Json.str) := by
    induction l with
    | nil => rfl
    | cons s rest ih =>
      simp only [List.map_cons, extractOids]
      have h1 : getOidEx (Json.obj [(("$oid"), Json.str s)]) = .ok (Json.str s) := rfl
      rw [h1, ih]
  have hall : (l.map Json.str).all pyHashable = true := by
    rw [List.all_eq_true]
    intro v hv
    rw [List.mem_map] at hv
    obtain ⟨s, _, rfl⟩ := hv
    rfl
  have hfd : find_duplicates (l.map (fun s => Json.obj [(("$oid"), Json.str s)]))
      = .ok ((firstSeen (l.map Json.str)).filter
          (fun v => (l.map Json.str).count v > 1)) := by
    simp [find_duplicates, hex, hall]
  refine ⟨_, hfd, ?_, ?_, ?_, rfl, rfl⟩
  · intro v
    rw [List.mem_filter, firstSeen_mem]
    constructor
    · rintro ⟨hv, hcnt⟩
      rw [List.mem_map] at hv
      obtain ⟨s, hs, rfl⟩ := hv
      refine ⟨s, rfl, ?_⟩
      have h2 : 1 < (l.map Json.str).count (Json.str s) := of_decide_eq_true hcnt
      rwa [List.count_map_of_injective l Json.str hinj s] at h2
    · rintro ⟨s, rfl, hc⟩
      have hcm : 1 < (l.map Json.str).count (Json.str s) := by
        rwa [List.count_map_of_injective l Json.str hinj s]
      refine ⟨?_, decide_eq_true hcm⟩
      rw [List.mem_map]
      refine ⟨s, ?_, rfl⟩
      have h0 : 0 < l.count s := by omega
      exact List.count_pos_iff.mp h0
  · exact (firstSeen_nodup _).filter _
  · exact List.Pairwise.sublist (List.filter_sublist _) (firstSeen_pairwise _)

/-- Witness for C3 at the concrete collection from the spec's example. -/
theorem c3_find_duplicates_witness :
    ∃ dups : List Json,
      find_duplicates (([("1"), ("2"), ("1")] : List String).map
          (fun s => Json.obj [(("$oid"), Json.str s)])) = .ok dups
      ∧ (∀ v, v ∈ dups ↔ ∃ s, v = Json.str s ∧ 1 < ([("1"), ("2"), ("1")] : List String).count s)
      ∧ dups.Nodup
      ∧ dups.Pairwise (fun a b =>
          firstIdx (([("1"), ("2"), ("1")] : List String).map Json.str) a
            < firstIdx (([("1"), ("2"), ("1")] : List String).map Json.str) b)
      ∧ find_duplicates (([("1"), ("2"), ("1")] : List String).map
          (fun s => Json.obj [(("$oid"), Json.str s)])) = .ok [Json.str ("1")]
      ∧ find_duplicates (([("1"), ("2")] : List String).map
          (fun s => Json.obj [(("$oid"), Json.str s)])) = .ok [] :=
  c3_find_duplicates [("1"), ("2"), ("1")] _ rfl
